import Mathlib

/-!
Verification of the Wasm calling-convention adapter in
`src/testers/rust-tester/src/pdre_api/utils/mod.rs` (`CallWasm`):
the parameter encoder `gen_params` and the return decoders
`return_none_write_buffer`, `return_value_no_buffer`,
`return_value_write_buffer` and `return_buffer`.

Bytes are `Nat` (values `< 256` in practice; nothing below depends on the
bound).  Guest linear memory is a `List Nat` of bytes addressed from `0`.
Machine integers are modelled as mathematical integers with the explicit
conversions the Rust source performs (`as i32`, `as u32`,
`u32::from_le_bytes`).
-/

namespace CallWasm

/-- `wasmi::RuntimeValue`.  `I32`/`I64` carry the signed value; the float
variants carry the raw bit pattern (they are only matched on, never
interpreted, in the code under study). -/
inductive RuntimeValue where
  | I32 (v : Int)
  | I64 (v : Int)
  | F32 (bits : Nat)
  | F64 (bits : Nat)
deriving DecidableEq, Repr

/-- Rust `u32 as i32` / `usize as i32`: truncate to 32 bits, reinterpret
signed. -/
def i32OfNat (n : Nat) : Int :=
  if n % 2 ^ 32 < 2 ^ 31 then ((n % 2 ^ 32 : Nat) : Int)
  else ((n % 2 ^ 32 : Nat) : Int) - 2 ^ 32

/-- Rust `i32 as u32`: reinterpret the 32-bit pattern unsigned. -/
def u32OfInt (r : Int) : Nat := (r % (2 ^ 32 : Int)).toNat

/-- Rust `u32::from_le_bytes` on a 4-byte slice. -/
def u32FromLeBytes (bs : List Nat) : Nat :=
  bs.getD 0 0 + 2 ^ 8 * bs.getD 1 0 + 2 ^ 16 * bs.getD 2 0 + 2 ^ 24 * bs.getD 3 0

/-- `wasmi::MemoryRef::get ptr len`: the `len` bytes starting at offset
`ptr`, or `none` when the range is out of bounds. -/
def memGet (memory : List Nat) (ptr len : Nat) : Option (List Nat) :=
  if ptr + len ≤ memory.length then some ((memory.drop ptr).take len) else none

/-- Outcome of a return decoder: `Result<Option<R>, Error>` in the source,
plus `panicked` for an `unwrap` on an `Err` (a Rust panic, which is neither
`Ok` nor a returned `Error::Runtime`). -/
inductive DecodeOutcome (α : Type) where
  | ok (val : α)
  | noResult
  | runtimeError
  | panicked
deriving DecidableEq, Repr

/-- Result of running a decoder: its outcome, the final contents of the
mutable state it may write (`σ`: the output buffer or the shared length
cell), and the log of `(offset, length)` guest-memory reads it performed,
in order (a failed bounds check is still logged as an attempted read). -/
structure DecRes (α σ : Type) where
  outcome : DecodeOutcome α
  state : σ
  reads : List (Nat × Nat)
deriving DecidableEq, Repr

/-- `CallWasm::return_none`: ignore everything, succeed with `()`. -/
def return_none (_res : Option RuntimeValue) (_memory : List Nat) :
    DecodeOutcome Unit :=
  .ok ()

/-- `CallWasm::return_none_write_buffer`: read `output.len()` bytes at the
address in the shared pointer cell and copy them over `output`; an
out-of-bounds read returns `Error::Runtime`.  The guest return value is
ignored. -/
def return_none_write_buffer (output : List Nat) (ptrCell : Nat)
    (_res : Option RuntimeValue) (memory : List Nat) :
    DecRes Unit (List Nat) :=
  let len := output.length
  match memGet memory ptrCell len with
  | none => ⟨.runtimeError, output, [(ptrCell, len)]⟩
  | some bytes => ⟨.ok (), bytes, [(ptrCell, len)]⟩

/-- `CallWasm::return_value_no_buffer`: an `I32` return is surfaced as its
unsigned reinterpretation; anything else is `Ok(None)`. -/
def return_value_no_buffer (res : Option RuntimeValue) (_memory : List Nat) :
    DecodeOutcome Nat :=
  match res with
  | some (.I32 r) => .ok (u32OfInt r)
  | _ => .noResult

/-- `CallWasm::return_value_write_buffer`: on an `I32` return, read
`output.len()` bytes at the address in the shared pointer cell into
`output` and return the scalar unsigned; out-of-bounds read returns
`Error::Runtime`; a non-`I32` return is `Ok(None)` and touches nothing. -/
def return_value_write_buffer (output : List Nat) (ptrCell : Nat)
    (res : Option RuntimeValue) (memory : List Nat) :
    DecRes Nat (List Nat) :=
  let len := output.length
  match res with
  | some (.I32 r) =>
    match memGet memory ptrCell len with
    | none => ⟨.runtimeError, output, [(ptrCell, len)]⟩
    | some bytes => ⟨.ok (u32OfInt r), bytes, [(ptrCell, len)]⟩
  | _ => ⟨.noResult, output, []⟩

/-- `CallWasm::return_buffer`: on an `I32` return `r`, first read 4 bytes at
the address in the shared pointer cell (`unwrap`: an out-of-bounds read
panics) and store their little-endian value in the shared length cell;
then, if `r == 0`, succeed with the empty buffer; otherwise read
`result_len` bytes at `r as u32`, `Error::Runtime` on out-of-bounds.
`resultLen₀` is the length cell's prior contents; the `state` field is its
final contents. -/
def return_buffer (resultLen₀ : Nat) (ptrCell : Nat)
    (res : Option RuntimeValue) (memory : List Nat) :
    DecRes (List Nat) Nat :=
  match res with
  | some (.I32 r) =>
    match memGet memory ptrCell 4 with
    | none => ⟨.panicked, resultLen₀, [(ptrCell, 4)]⟩
    | some prefixBytes =>
      let n := u32FromLeBytes prefixBytes
      if r = 0 then ⟨.ok [], n, [(ptrCell, 4)]⟩
      else
        match memGet memory (u32OfInt r) n with
        | none => ⟨.runtimeError, n, [(ptrCell, 4), (u32OfInt r, n)]⟩
        | some payload => ⟨.ok payload, n, [(ptrCell, 4), (u32OfInt r, n)]⟩
  | _ => ⟨.noResult, resultLen₀, []⟩

/-- The allocation loop of `CallWasm::gen_params`:
`for d in &data_c { offsets.push(alloc(d)?); }`.
`alloc k d` is the allocator's answer to its `k`-th invocation (counting
from `k₀`) on buffer `d`; `none` is an allocator `Err`.  Returns the
collected offsets (`none` when the loop aborted through `?`) together with
the number of allocator calls made. -/
def runAlloc (alloc : Nat → List Nat → Option Nat) :
    Nat → List (List Nat) → Option (List Nat) × Nat
  | _, [] => (some [], 0)
  | k, d :: ds =>
    match alloc k d with
    | none => (none, 1)
    | some off =>
      let rest := runAlloc alloc (k + 1) ds
      (rest.1.map (off :: ·), rest.2 + 1)

/-- The value-building loop of `gen_params`: for each offset push
`I32(off as i32)` and, when the running counter is in `len_index`, also
`I32(data[counter].len() as i32)`. -/
def buildVals (data : List (List Nat)) (lenIndex : List Nat) :
    Nat → List Nat → List RuntimeValue
  | _, [] => []
  | counter, off :: offs =>
    .I32 (i32OfNat off) ::
      (if lenIndex.contains counter then
        [RuntimeValue.I32 (i32OfNat (data.getD counter []).length)]
      else []) ++ buildVals data lenIndex (counter + 1) offs

/-- Result of `gen_params`: the ABI value sequence (`none` when an
allocator call failed and the closure returned `Err`), the final contents
of the optional shared pointer cell, and how many allocator calls were
made. -/
structure GenParamsRes where
  vals : Option (List RuntimeValue)
  ptrCell : Option Nat
  allocCalls : Nat
deriving DecidableEq, Repr

/-- `CallWasm::gen_params`: allocate every buffer in list order (aborting
on the first allocator failure), then, if a pointer cell was supplied and
at least one buffer was allocated, store the last offset in it, and emit
the ABI values.  `ptr` is the supplied cell with its prior contents
(`none` = no cell supplied). -/
def gen_params (data : List (List Nat)) (lenIndex : List Nat)
    (ptr : Option Nat) (alloc : Nat → List Nat → Option Nat) : GenParamsRes :=
  match runAlloc alloc 0 data with
  | (none, c) => ⟨none, ptr, c⟩
  | (some offsets, c) =>
    let ptr' := if ptr.isSome ∧ 1 ≤ offsets.length
      then some (offsets.getLastD 0) else ptr
    ⟨some (buildVals data lenIndex 0 offsets), ptr', c⟩

/-- Written from the spec's words (§4.1/§8), to be compared with
`buildVals`: for each buffer (paired with its allocated offset, indices
counted from `k`), its offset, followed by its byte length iff its index
is in the length-index set `S`.  Slots hold the plain values, as the spec
states them. -/
def abiSpecFrom (S : List Nat) : Nat → List (List Nat × Nat) → List RuntimeValue
  | _, [] => []
  | k, (b, off) :: rest =>
    .I32 (off : Int) ::
      (if S.contains k then [RuntimeValue.I32 ((b.length : Nat) : Int)] else [])
      ++ abiSpecFrom S (k + 1) rest

/-- The spec-side ABI sequence for `data` with offsets `offsets`. -/
def abiSpec (data : List (List Nat)) (S : List Nat) (offsets : List Nat) :
    List RuntimeValue :=
  abiSpecFrom S 0 (data.zip offsets)

end CallWasm

namespace CallWasm

example : return_buffer 0 0 (some (.I32 0)) [5, 0, 0, 0] =
    ⟨.ok [], 5, [(0, 4)]⟩ := by decide

example : return_buffer 7 0 (some (.I32 1)) [] =
    ⟨.panicked, 7, [(0, 4)]⟩ := by decide

example : return_buffer 7 0 (some (.I32 4)) [2, 0, 0, 0, 10, 11] =
    ⟨.ok [10, 11], 2, [(0, 4), (4, 2)]⟩ := by decide

example : return_buffer 7 0 (some (.I32 4)) [9, 0, 0, 0, 10, 11] =
    ⟨.runtimeError, 9, [(0, 4), (4, 9)]⟩ := by decide

-- Spec §8: encoding (["abc"], lenIndex = {0}, ptr = none) gives [off0, 3].
example : gen_params [[97, 98, 99]] [0] none (fun k _ => some (16 * (k + 1))) =
    ⟨some [.I32 16, .I32 3], none, 1⟩ := by decide

-- Spec §8: (["abc", "defg"], lenIndex = {}, ptr = cell) writes the second
-- buffer's offset into the cell and emits the two offsets.
example : gen_params [[97, 98, 99], [100, 101, 102, 103]] [] (some 0)
      (fun k _ => some (16 * (k + 1))) =
    ⟨some [.I32 16, .I32 32], some 32, 2⟩ := by decide

-- Allocator failure on the second of three buffers: no ABI sequence, cell
-- untouched, exactly two allocator calls.
example : gen_params [[1], [2], [3]] [] (some 99)
      (fun k _ => if k = 1 then none else some k) =
    ⟨none, some 99, 2⟩ := by decide

theorem i32OfNat_of_lt {n : Nat} (h : n < 2 ^ 31) : i32OfNat n = (n : Int) := by
  unfold i32OfNat
  rw [Nat.mod_eq_of_lt (by omega)]
  rw [if_pos h]

/-- A successful run of the allocation loop: one allocator call per
buffer, in order, offsets collected positionally. -/
theorem runAlloc_sound (alloc : Nat → List Nat → Option Nat) :
    ∀ (data : List (List Nat)) (k : Nat) (offsets : List Nat) (c : Nat),
      runAlloc alloc k data = (some offsets, c) →
      offsets.length = data.length ∧ c = data.length ∧
      ∀ i, i < data.length → alloc (k + i) (data.getD i []) = some (offsets.getD i 0)
  | [], k, offsets, c, h => by
    rw [runAlloc] at h
    obtain ⟨h1, h2⟩ := Prod.mk.injEq _ _ _ _ ▸ h
    cases h1
    exact ⟨rfl, h2.symm, fun i hi => absurd hi (by simp)⟩
  | d :: ds, k, offsets, c, h => by
    rw [runAlloc] at h
    cases ha : alloc k d with
    | none => rw [ha] at h; simp at h
    | some off =>
      rw [ha] at h
      simp only at h
      obtain ⟨r, c', hrest⟩ : ∃ r c', runAlloc alloc (k + 1) ds = (r, c') := ⟨_, _, rfl⟩
      rw [hrest] at h
      obtain ⟨h1, h2⟩ := Prod.mk.injEq _ _ _ _ ▸ h
      cases r with
      | none => simp at h1
      | some offs =>
        simp only [Option.map_some'] at h1
        cases h1
        obtain ⟨ih1, ih2, ih3⟩ := runAlloc_sound alloc ds (k + 1) offs c' hrest
        refine ⟨by simp [ih1], by simp [ih2, h2.symm], ?_⟩
        intro i hi
        match i with
        | 0 => simpa using ha
        | j + 1 =>
          have := ih3 j (by simpa using hi)
          simpa [Nat.add_assoc, Nat.add_comm 1 j] using this

/-- A failing run of the allocation loop: the first allocator failure (at
position `k`) aborts it after exactly `k + 1` calls with no offsets. -/
theorem runAlloc_fail (alloc : Nat → List Nat → Option Nat) :
    ∀ (data : List (List Nat)) (k₀ k : Nat),
      k < data.length →
      alloc (k₀ + k) (data.getD k []) = none →
      (∀ j, j < k → (alloc (k₀ + j) (data.getD j [])).isSome) →
      runAlloc alloc k₀ data = (none, k + 1)
  | [], _, k, hk, _, _ => absurd hk (by simp)
  | d :: ds, k₀, 0, _, hfail, _ => by
    rw [runAlloc]
    simp only [List.getD_cons_zero, Nat.add_zero] at hfail
    rw [hfail]
  | d :: ds, k₀, k + 1, hk, hfail, hok => by
    rw [runAlloc]
    have h0 := hok 0 (by omega)
    simp only [List.getD_cons_zero, Nat.add_zero] at h0
    obtain ⟨off, hoff⟩ := Option.isSome_iff_exists.mp h0
    rw [hoff]
    have ih := runAlloc_fail alloc ds (k₀ + 1) k (by simpa using hk)
      (by simpa [Nat.add_assoc, Nat.add_comm 1 k] using hfail)
      (by
        intro j hj
        have := hok (j + 1) (by omega)
        simpa [Nat.add_assoc, Nat.add_comm 1 j] using this)
    rw [ih]
    rfl

/-- `buildVals` agrees with the spec-side ABI sequence when all offsets
and buffer lengths fit in 31 bits (so `as i32` is value-preserving). -/
theorem buildVals_eq_abiSpecFrom (S : List Nat) :
    ∀ (offs : List Nat) (k : Nat) (data : List (List Nat)),
      k + offs.length ≤ data.length →
      (∀ off ∈ offs, off < 2 ^ 31) →
      (∀ b ∈ data, b.length < 2 ^ 31) →
      buildVals data S k offs = abiSpecFrom S k ((data.drop k).zip offs)
  | [], k, data, _, _, _ => by
    rw [buildVals]
    simp [abiSpecFrom]
  | off :: offs, k, data, hle, hoff, hdata => by
    have hk : k < data.length := by
      have := hle
      simp only [List.length_cons] at this
      omega
    rw [List.drop_eq_getElem_cons hk]
    rw [buildVals, List.zip_cons_cons, abiSpecFrom]
    have hoff0 : i32OfNat off = (off : Int) := i32OfNat_of_lt (hoff off (by simp))
    have hdk : data.getD k [] = data[k] := List.getD_eq_getElem data [] hk
    have hlenk : i32OfNat (data.getD k []).length = ((data.getD k []).length : Int) :=
      i32OfNat_of_lt (by rw [hdk]; exact hdata _ (data.getElem_mem hk))
    have ih := buildVals_eq_abiSpecFrom S offs (k + 1) data
      (by simp only [List.length_cons] at hle; omega)
      (fun o ho => hoff o (by simp [ho]))
      hdata
    rw [ih, hoff0, hdk.symm, hlenk]

/-- Length of the spec-side ABI sequence: one slot per pair plus one per
in-range index of `S`. -/
theorem abiSpecFrom_length (S : List Nat) :
    ∀ (pairs : List (List Nat × Nat)) (k : Nat),
      (abiSpecFrom S k pairs).length =
        pairs.length +
          ((List.range' k pairs.length).filter (fun i => S.contains i)).length
  | [], k => by simp [abiSpecFrom]
  | (b, off) :: rest, k => by
    rw [abiSpecFrom]
    have ih := abiSpecFrom_length S rest (k + 1)
    by_cases hc : k ∈ S
    · simp [List.range'_succ, List.filter_cons, hc, ih]
      omega
    · simp [List.range'_succ, List.filter_cons, hc, ih]
      omega

/-- A nodup index set bounded by `n` meets `range n` in exactly its own
length. -/
theorem filter_range_contains_length {S : List Nat} {n : Nat} (hnd : S.Nodup)
    (hS : ∀ i ∈ S, i < n) :
    ((List.range n).filter (fun i => S.contains i)).length = S.length := by
  have h1 : ((List.range n).filter (fun i => S.contains i)).Nodup :=
    (List.nodup_range n).filter _
  have h2 : ∀ a, a ∈ (List.range n).filter (fun i => S.contains i) ↔ a ∈ S := by
    intro a
    simp only [List.mem_filter, List.mem_range, List.elem_iff]
    exact ⟨fun h => h.2, fun h => ⟨hS a h, h⟩⟩
  exact ((List.perm_ext_iff_of_nodup h1 hnd).mpr h2).length_eq

theorem getLastD_eq_getD {α : Type} : ∀ (l : List α) (d : α), l ≠ [] →
    l.getLastD d = l.getD (l.length - 1) d
  | [a], _, _ => rfl
  | a :: b :: t, d, _ => by
    rw [List.getLastD_cons d a (b :: t)]
    rw [getLastD_eq_getD (b :: t) a (by simp)]
    have h1 : (b :: t).length - 1 < (b :: t).length := by simp
    have h2 : (a :: b :: t).length - 1 < (a :: b :: t).length := by simp
    rw [List.getD_eq_getElem (b :: t) a h1, List.getD_eq_getElem (a :: b :: t) d h2]
    simp

/-- C4: when every allocator call succeeds, the encoder emits, for each
buffer in list order, its allocated offset followed — iff its index is in
the (distinct, in-range) length-index set — by a slot holding its byte
length, and the sequence has length `|L| + |S|`.  Offsets and lengths are
assumed to fit in 31 bits so that the `as i32` casts in the source are
value-preserving. -/
theorem C4_encoder_abi_sequence (data : List (List Nat)) (S : List Nat)
    (ptr : Option Nat) (alloc : Nat → List Nat → Option Nat)
    (offsets : List Nat) (c : Nat)
    (hrun : runAlloc alloc 0 data = (some offsets, c))
    (hnd : S.Nodup) (hS : ∀ i ∈ S, i < data.length)
    (hoff : ∀ off ∈ offsets, off < 2 ^ 31)
    (hlen : ∀ b ∈ data, b.length < 2 ^ 31) :
    (gen_params data S ptr alloc).vals = some (abiSpec data S offsets) ∧
    (abiSpec data S offsets).length = data.length + S.length := by
  obtain ⟨hlens, -, -⟩ := runAlloc_sound alloc data 0 offsets c hrun
  constructor
  · simp only [gen_params]
    rw [hrun]
    simp only [abiSpec]
    rw [buildVals_eq_abiSpecFrom S offsets 0 data (by omega) hoff hlen]
    rw [List.drop_zero]
  · rw [abiSpec, abiSpecFrom_length S (data.zip offsets) 0]
    have hzip : (data.zip offsets).length = data.length := by
      rw [List.length_zip, hlens, Nat.min_self]
    rw [hzip, ← List.range_eq_range', filter_range_contains_length hnd hS]

/-- C4 witness: `(["abc"], S = {0})` with allocator offsets `16(k+1)`
encodes to `[I32 16, I32 3]`, of length `1 + 1`. -/
theorem C4_encoder_abi_sequence_witness :
    (gen_params [[97, 98, 99]] [0] none (fun k _ => some (16 * (k + 1)))).vals =
      some (abiSpec [[97, 98, 99]] [0] [16]) ∧
    (abiSpec [[97, 98, 99]] [0] [16]).length = 1 + 1 :=
  C4_encoder_abi_sequence [[97, 98, 99]] [0] none (fun k _ => some (16 * (k + 1)))
    [16] 1 rfl (by decide) (by decide) (by decide) (by decide)

/-- C5: with a pointer cell supplied and a non-empty buffer list, a fully
successful encode leaves the cell holding the very offset the allocator
returned for the last buffer. -/
theorem C5_pointer_cell_gets_last_offset (data : List (List Nat)) (S : List Nat)
    (p₀ : Nat) (alloc : Nat → List Nat → Option Nat)
    (offsets : List Nat) (c : Nat)
    (hne : data ≠ [])
    (hrun : runAlloc alloc 0 data = (some offsets, c)) :
    (gen_params data S (some p₀) alloc).ptrCell = some (offsets.getLastD 0) ∧
    alloc (data.length - 1) (data.getLastD []) = some (offsets.getLastD 0) := by
  obtain ⟨hlens, -, hcalls⟩ := runAlloc_sound alloc data 0 offsets c hrun
  have hone : offsets ≠ [] := by
    intro h
    rw [h] at hlens
    exact hne (List.length_eq_zero.mp hlens.symm)
  have h1 : 1 ≤ offsets.length := by
    cases offsets with
    | nil => exact absurd rfl hone
    | cons a t => simp
  constructor
  · simp only [gen_params]
    rw [hrun]
    simp [h1]
  · have hd : 0 < data.length := by
      cases data with
      | nil => exact absurd rfl hne
      | cons a t => simp
    have hlast := hcalls (data.length - 1) (by omega)
    rw [getLastD_eq_getD data [] hne, getLastD_eq_getD offsets 0 hone, hlens]
    simpa using hlast

/-- C5 witness: encoding `["abc", "defg"]` with a pointer cell and
offsets `16, 32` writes `32` — the allocator's answer for `"defg"` — into
the cell. -/
theorem C5_pointer_cell_gets_last_offset_witness :
    (gen_params [[97, 98, 99], [100, 101, 102, 103]] [] (some 0)
        (fun k _ => some (16 * (k + 1)))).ptrCell = some 32 ∧
    (fun (k : Nat) (_b : List Nat) => some (16 * (k + 1)))
        (([[97, 98, 99], [100, 101, 102, 103]] : List (List Nat)).length - 1)
        ([[97, 98, 99], [100, 101, 102, 103]].getLastD []) = some 32 :=
  C5_pointer_cell_gets_last_offset [[97, 98, 99], [100, 101, 102, 103]] []
    0 (fun k _ => some (16 * (k + 1))) [16, 32] 2 (by simp) rfl

/-- C6: if the allocator fails on buffer `k` (having succeeded on all
earlier ones), the encoder aborts: no ABI sequence, the pointer cell — if
supplied — keeps its prior contents, and exactly `k + 1` allocator calls
were made (none after the failing one). -/
theorem C6_allocator_failure_aborts (data : List (List Nat)) (S : List Nat)
    (ptr : Option Nat) (alloc : Nat → List Nat → Option Nat) (k : Nat)
    (hk : k < data.length)
    (hfail : alloc k (data.getD k []) = none)
    (hok : ∀ j, j < k → (alloc j (data.getD j [])).isSome) :
    gen_params data S ptr alloc = ⟨none, ptr, k + 1⟩ := by
  have h := runAlloc_fail alloc data 0 k hk (by simpa using hfail)
    (fun j hj => by simpa using hok j hj)
  simp only [gen_params]
  rw [h]

/-- C6 witness: three buffers, allocator failing on the second: no ABI
sequence, the cell keeps `99`, and exactly two allocator calls happened. -/
theorem C6_allocator_failure_aborts_witness :
    gen_params [[1], [2], [3]] [] (some 99)
        (fun k _ => if k = 1 then none else some k) = ⟨none, some 99, 2⟩ :=
  C6_allocator_failure_aborts [[1], [2], [3]] [] (some 99)
    (fun k _ => if k = 1 then none else some k) 1 (by simp) rfl
    (fun j hj => by
      have : j = 0 := by omega
      subst this
      rfl)

/-- C1 counterexample: with guest return `0`, a pointer cell holding
address `0` and the in-bounds memory `[5,0,0,0]`, the decoder DOES read
guest memory (the 4-byte length prefix), contradicting "no guest memory is
read at all". -/
theorem C1_cex_zero_return_still_reads :
    (return_buffer 0 0 (some (.I32 0)) [5, 0, 0, 0]).reads ≠ [] := by decide

/-- C1 (amended): when the guest returns the 32-bit integer `0` and the
4-byte length-prefix read at the shared pointer cell's address is in
bounds, the result is the empty buffer and the only guest-memory read is
that length-prefix read — no memory at the returned (reserved) pointer is
read, whatever the prefix bytes hold. -/
theorem C1_zero_return_empty_buffer (len₀ ptrCell : Nat) (memory prefixBytes : List Nat)
    (hp : memGet memory ptrCell 4 = some prefixBytes) :
    return_buffer len₀ ptrCell (some (.I32 0)) memory =
      ⟨.ok [], u32FromLeBytes prefixBytes, [(ptrCell, 4)]⟩ := by
  simp [return_buffer, hp]

/-- C1 witness: the amended statement at a concrete input. -/
theorem C1_zero_return_empty_buffer_witness :
    return_buffer 0 0 (some (.I32 0)) [5, 0, 0, 0] = ⟨.ok [], 5, [(0, 4)]⟩ :=
  C1_zero_return_empty_buffer 0 0 [5, 0, 0, 0] [5, 0, 0, 0] (by decide)

/-- C2 counterexample: an out-of-bounds 4-byte length-prefix read does NOT
fail by returning a RuntimeError — the `unwrap` in the source panics
instead. -/
theorem C2_cex_prefix_oob_panics :
    (return_buffer 0 0 (some (.I32 1)) []).outcome = .panicked ∧
    (return_buffer 0 0 (some (.I32 1)) []).outcome ≠ .runtimeError := by decide

/-- C2 (amended): an out-of-bounds N-byte payload read fails by returning
a RuntimeError, but an out-of-bounds 4-byte length-prefix read at the
shared pointer cell's address aborts by a panic (`unwrap` of an `Err`),
not by returning a RuntimeError. -/
theorem C2_oob_failure_modes (len₀ ptrCell : Nat) (r : Int) (memory : List Nat) :
    (memGet memory ptrCell 4 = none →
      (return_buffer len₀ ptrCell (some (.I32 r)) memory).outcome = .panicked) ∧
    (∀ prefixBytes, memGet memory ptrCell 4 = some prefixBytes → r ≠ 0 →
      memGet memory (u32OfInt r) (u32FromLeBytes prefixBytes) = none →
      (return_buffer len₀ ptrCell (some (.I32 r)) memory).outcome = .runtimeError) := by
  constructor
  · intro hp
    simp [return_buffer, hp]
  · intro prefixBytes hp hr hn
    simp [return_buffer, hp, hr, hn]

/-- C2 witness: both amended failure modes at concrete inputs. -/
theorem C2_oob_failure_modes_witness :
    (return_buffer 0 0 (some (.I32 1)) []).outcome = .panicked ∧
    (return_buffer 0 0 (some (.I32 4)) [9, 0, 0, 0]).outcome = .runtimeError :=
  ⟨(C2_oob_failure_modes 0 0 1 []).1 (by decide),
   (C2_oob_failure_modes 0 0 4 [9, 0, 0, 0]).2 [9, 0, 0, 0] (by decide) (by decide) (by decide)⟩

/-- C3: when the guest returns `r ≠ 0`, the 4 bytes at the shared pointer
cell's address are in bounds and encode length `N`, and the `N`-byte read
at address `r` is in bounds, the decoder returns exactly those `N` bytes
and stores `N` in the shared length cell. -/
theorem C3_nonzero_return_payload (len₀ ptrCell : Nat) (r : Int)
    (memory prefixBytes payload : List Nat)
    (hr : r ≠ 0)
    (hp : memGet memory ptrCell 4 = some prefixBytes)
    (hn : memGet memory (u32OfInt r) (u32FromLeBytes prefixBytes) = some payload) :
    return_buffer len₀ ptrCell (some (.I32 r)) memory =
      ⟨.ok payload, u32FromLeBytes prefixBytes,
        [(ptrCell, 4), (u32OfInt r, u32FromLeBytes prefixBytes)]⟩ ∧
    payload.length = u32FromLeBytes prefixBytes := by
  refine ⟨by simp [return_buffer, hp, hr, hn], ?_⟩
  unfold memGet at hn
  split at hn
  · cases hn
    simpa using by omega
  · cases hn

/-- C3 witness: concrete memory `[2,0,0,0,10,11]`, pointer cell `0`,
guest return `4`: payload `[10,11]`, length cell `2`. -/
theorem C3_nonzero_return_payload_witness :
    return_buffer 7 0 (some (.I32 4)) [2, 0, 0, 0, 10, 11] =
      ⟨.ok [10, 11], 2, [(0, 4), (4, 2)]⟩ ∧ ([10, 11] : List Nat).length = 2 :=
  ⟨(C3_nonzero_return_payload 7 0 4 [2, 0, 0, 0, 10, 11] [2, 0, 0, 0] [10, 11]
      (by decide) (by decide) (by decide)).1,
   (C3_nonzero_return_payload 7 0 4 [2, 0, 0, 0, 10, 11] [2, 0, 0, 0] [10, 11]
      (by decide) (by decide) (by decide)).2⟩

/-- C7: for `return_value_write_buffer` on an `I32` return and for
`return_none_write_buffer` on any return, an in-bounds read copies exactly
`output.length` bytes from the shared pointer cell's address over the
output buffer (the scalar variant also returning the guest scalar
unsigned), and an out-of-bounds read yields a RuntimeError. -/
theorem C7_write_buffer_decoders (output : List Nat) (ptrCell : Nat)
    (memory : List Nat) (r : Int) (res : Option RuntimeValue) :
    (∀ bytes, memGet memory ptrCell output.length = some bytes →
      return_value_write_buffer output ptrCell (some (.I32 r)) memory =
        ⟨.ok (u32OfInt r), bytes, [(ptrCell, output.length)]⟩ ∧
      return_none_write_buffer output ptrCell res memory =
        ⟨.ok (), bytes, [(ptrCell, output.length)]⟩ ∧
      bytes.length = output.length) ∧
    (memGet memory ptrCell output.length = none →
      (return_value_write_buffer output ptrCell (some (.I32 r)) memory).outcome =
        .runtimeError ∧
      (return_none_write_buffer output ptrCell res memory).outcome = .runtimeError) := by
  constructor
  · intro bytes h
    refine ⟨by simp [return_value_write_buffer, h],
            by simp [return_none_write_buffer, h], ?_⟩
    unfold memGet at h
    split at h
    · cases h
      simpa using by omega
    · cases h
  · intro h
    exact ⟨by simp [return_value_write_buffer, h], by simp [return_none_write_buffer, h]⟩

/-- C7 witness: output of length 2, memory `[8,9,10]`, pointer cell `1`:
both decoders copy `[9,10]`; with pointer cell `2` the read is out of
bounds and both yield RuntimeError. -/
theorem C7_write_buffer_decoders_witness :
    (return_value_write_buffer [0, 0] 1 (some (.I32 (-1))) [8, 9, 10] =
      ⟨.ok 4294967295, [9, 10], [(1, 2)]⟩ ∧
     return_none_write_buffer [0, 0] 1 none [8, 9, 10] = ⟨.ok (), [9, 10], [(1, 2)]⟩) ∧
    ((return_value_write_buffer [0, 0] 2 (some (.I32 (-1))) [8, 9, 10]).outcome =
      .runtimeError ∧
     (return_none_write_buffer [0, 0] 2 none [8, 9, 10]).outcome = .runtimeError) := by
  constructor
  · have h := (C7_write_buffer_decoders [0, 0] 1 [8, 9, 10] (-1) none).1 [9, 10] (by decide)
    exact ⟨h.1, h.2.1⟩
  · exact (C7_write_buffer_decoders [0, 0] 2 [8, 9, 10] (-1) none).2 (by decide)

/-- C8: `return_value_no_buffer` surfaces an `I32` guest return as its
unsigned 32-bit reinterpretation, and every absent or non-`I32` return
yields the distinguishable no-result outcome, never an error. -/
theorem C8_scalar_only (res : Option RuntimeValue) (memory : List Nat) :
    (∀ r, res = some (.I32 r) → return_value_no_buffer res memory = .ok (u32OfInt r)) ∧
    ((∀ r, res ≠ some (.I32 r)) →
      return_value_no_buffer res memory = .noResult ∧
      return_value_no_buffer res memory ≠ .runtimeError ∧
      return_value_no_buffer res memory ≠ .panicked) := by
  constructor
  · rintro r rfl
    rfl
  · intro h
    match res with
    | none => exact ⟨rfl, by simp [return_value_no_buffer], by simp [return_value_no_buffer]⟩
    | some (.I32 r) => exact absurd rfl (h r)
    | some (.I64 v) => exact ⟨rfl, by simp [return_value_no_buffer], by simp [return_value_no_buffer]⟩
    | some (.F32 b) => exact ⟨rfl, by simp [return_value_no_buffer], by simp [return_value_no_buffer]⟩
    | some (.F64 b) => exact ⟨rfl, by simp [return_value_no_buffer], by simp [return_value_no_buffer]⟩

/-- C8 witness: `I32 (-1)` decodes to `2^32 - 1`; an `I64` return gives
no-result, not an error. -/
theorem C8_scalar_only_witness :
    return_value_no_buffer (some (.I32 (-1))) [] = .ok 4294967295 ∧
    (return_value_no_buffer (some (.I64 3)) [] = .noResult ∧
     return_value_no_buffer (some (.I64 3)) [] ≠ .runtimeError ∧
     return_value_no_buffer (some (.I64 3)) [] ≠ .panicked) :=
  ⟨(C8_scalar_only (some (.I32 (-1))) []).1 (-1) rfl,
   (C8_scalar_only (some (.I64 3)) []).2 (by intro r h; simp at h)⟩

/-- C9: when the guest return is absent or not an `I32`,
`return_value_write_buffer` yields no-result, performs no guest-memory
read, and leaves the output buffer unchanged. -/
theorem C9_scalar_plus_buffer_frame (output : List Nat) (ptrCell : Nat)
    (res : Option RuntimeValue) (memory : List Nat)
    (h : ∀ r, res ≠ some (.I32 r)) :
    return_value_write_buffer output ptrCell res memory = ⟨.noResult, output, []⟩ := by
  match res with
  | none => rfl
  | some (.I32 r) => exact absurd rfl (h r)
  | some (.I64 v) => rfl
  | some (.F32 b) => rfl
  | some (.F64 b) => rfl

/-- C9 witness: an `I64` return leaves the buffer `[7,8]` untouched with
no reads. -/
theorem C9_scalar_plus_buffer_frame_witness :
    return_value_write_buffer [7, 8] 0 (some (.I64 5)) [1, 2, 3] =
      ⟨.noResult, [7, 8], []⟩ :=
  C9_scalar_plus_buffer_frame [7, 8] 0 (some (.I64 5)) [1, 2, 3]
    (by intro r h; simp at h)

/-- C10: for every `I32` guest return — the zero sentinel included — as
long as the 4-byte read at the shared pointer cell's address is in bounds,
the shared length cell is overwritten with its little-endian value (the
read and store happen before the zero check). -/
theorem C10_length_cell_always_written (len₀ ptrCell : Nat) (r : Int)
    (memory prefixBytes : List Nat)
    (hp : memGet memory ptrCell 4 = some prefixBytes) :
    (return_buffer len₀ ptrCell (some (.I32 r)) memory).state =
      u32FromLeBytes prefixBytes := by
  unfold return_buffer
  rw [hp]
  by_cases hr : r = 0
  · simp [hr]
  · simp only [hr, if_neg hr]
    cases memGet memory (u32OfInt r) (u32FromLeBytes prefixBytes) <;> rfl

/-- C10 witness: guest return `0`, stale length cell `7`: the cell still
becomes `5`, the value read from memory. -/
theorem C10_length_cell_always_written_witness :
    (return_buffer 7 0 (some (.I32 0)) [5, 0, 0, 0]).state = 5 :=
  C10_length_cell_always_written 7 0 0 [5, 0, 0, 0] [5, 0, 0, 0] (by decide)

end CallWasm
